import Mathlib

/-!
Formal model of the GranularSynth audio engine (src/Source.cpp).

Modelling conventions:
* Interleaved sample buffers are lists of rationals.  The C++ code computes
  with IEEE `float`; here every floating-point value is modelled as an exact
  rational.  All concrete inputs used in the closed theorems below are chosen
  so that every floating-point operation the C++ code performs on them is
  exact (small integers and dyadic rationals), hence the rational model and
  the compiled program agree on those runs.
* `size_t(x)` applied to a non-negative float value is truncation towards
  zero, i.e. the floor; it is modelled by `qtrunc` below.  Negative-float
  casts and unsigned wrap-around never occur on the runs considered.
* Loops whose iteration count is not structurally bounded are modelled with
  an explicit fuel argument returning `Option`; `none` models a run that does
  not finish within the given fuel, and a result that is `none` for every
  fuel models non-termination of the corresponding C++ loop.
-/

namespace GranularSynth

/-- Interleaved audio buffer (frame-major, channels interleaved inside a
frame, exactly as the `std::vector<float>` buffers of the C++ code). -/
abbrev Buf := List ℚ

/-- Model of the C++ cast `size_t(x)` for a non-negative float `x`:
truncation towards zero, i.e. the floor. -/
def qtrunc (x : ℚ) : ℕ := (⌊x⌋).toNat

/-- Casting a natural number into the rationals and truncating is the
identity. -/
lemma qtrunc_natCast (n : ℕ) : qtrunc (n : ℚ) = n := by
  simp [qtrunc]

/-- Evaluation helper for `qtrunc` at concrete rational values. -/
lemma qtrunc_eval {x : ℚ} {n : ℕ} (h : (⌊x⌋ : ℤ) = (n : ℤ)) : qtrunc x = n := by
  simp [qtrunc, h]

/-- Concrete truncation values used in the closed evaluations below. -/
lemma qtrunc_q0 : qtrunc (0 : ℚ) = 0 := qtrunc_eval (by norm_num)

/-- Truncation of the rational `1`. -/
lemma qtrunc_q1 : qtrunc (1 : ℚ) = 1 := qtrunc_eval (by norm_num)

/-- Truncation of the rational `2`. -/
lemma qtrunc_q2 : qtrunc (2 : ℚ) = 2 := qtrunc_eval (by norm_num)

/-- Truncation of the rational `3`. -/
lemma qtrunc_q3 : qtrunc (3 : ℚ) = 3 := qtrunc_eval (by norm_num)

/-- Truncation of the rational `4`. -/
lemma qtrunc_q4 : qtrunc (4 : ℚ) = 4 := qtrunc_eval (by norm_num)

/-- Truncation of the rational `1/2`. -/
lemma qtrunc_half : qtrunc (1 / 2 : ℚ) = 0 := qtrunc_eval (by norm_num)

/-- Reading a mapped range at an in-range position. -/
lemma getD_map_range (n : ℕ) (f : ℕ → ℚ) (i : ℕ) (h : i < n) :
    ((List.range n).map f).getD i 0 = f i := by
  rw [List.getD_eq_getElem?_getD]
  simp [List.getElem?_range, h]

/-- Source.cpp `CubicHermite` (lines 344-351): cubic Hermite interpolation
through four uniformly spaced samples `A B C D`, evaluated at parameter `t`. -/
def CubicHermite (A B C D t : ℚ) : ℚ :=
  let a := -A / 2 + (3 * B) / 2 - (3 * C) / 2 + D / 2
  let b := A - (5 * B) / 2 + 2 * C - D / 2
  let c := -A / 2 + C / 2
  let d := B
  a * t * t * t + b * t * t + c * t + d

/-- Source.cpp `SampleChannelFractional` (lines 362-378): the four
interleaved tap indices of the fractional sample read.  Each per-channel
index `i-1, i, i+1, i+2` is converted to the interleaved offset
`index * numChannels + channel` and then clamped (independently) with
`std::min(idx, input.size() - 1)`. -/
def tapIndices (input : Buf) (sampleFloat : ℚ) (channel numChannels : ℕ) :
    ℕ × ℕ × ℕ × ℕ :=
  let sample := qtrunc sampleFloat
  let sampleIndexNeg1 :=
    (if 0 < sample then sample - 1 else sample) * numChannels + channel
  let sampleIndex0 := sample * numChannels + channel
  let sampleIndex1 := (sample + 1) * numChannels + channel
  let sampleIndex2 := (sample + 2) * numChannels + channel
  (min sampleIndexNeg1 (input.length - 1), min sampleIndex0 (input.length - 1),
   min sampleIndex1 (input.length - 1), min sampleIndex2 (input.length - 1))

/-- Source.cpp `SampleChannelFractional` (lines 353-381): fractional-index
read of one channel, by cubic Hermite interpolation of the four clamped
taps, at parameter `sampleFloat - floor(sampleFloat)`. -/
def SampleChannelFractional (input : Buf) (sampleFloat : ℚ)
    (channel numChannels : ℕ) : ℚ :=
  let sampleFraction := sampleFloat - (⌊sampleFloat⌋ : ℚ)
  let t := tapIndices input sampleFloat channel numChannels
  CubicHermite (input.getD t.1 0) (input.getD t.2.1 0) (input.getD t.2.2.1 0)
    (input.getD t.2.2.2 0) sampleFraction

/-- Source.cpp `TimeAdjust` (lines 402-419), the time-only resampler.
The output buffer has `numOutSamples * numChannels` slots and slot
`outSample * numChannels + channel` holds the fractional read of `channel`
at `numSrcSamples * (outSample / (numOutSamples - 1))`; the map below
produces exactly that interleaved layout (index `idx` decomposes uniquely
as `outSample = idx / numChannels`, `channel = idx % numChannels`). -/
def TimeAdjust (input : Buf) (numChannels : ℕ) (timeMultiplier : ℚ) : Buf :=
  let numSrcSamples := input.length / numChannels
  let numOutSamples := qtrunc ((numSrcSamples : ℚ) * timeMultiplier)
  (List.range (numOutSamples * numChannels)).map fun idx =>
    let outSample := idx / numChannels
    let channel := idx % numChannels
    let percent := (outSample : ℚ) / ((numOutSamples - 1 : ℕ) : ℚ)
    let srcSampleFloat := (numSrcSamples : ℚ) * percent
    SampleChannelFractional input srcSampleFloat channel numChannels

/-- C2 counterexample: for a 3-sample mono input and `timeMultiplier = 1/2`
the code allocates `size_t(3 * 0.5) = 1` output sample, while the nearest
integer to `3 * 0.5 = 1.5` is `2`.  (All float operations involved are
exact at these values.) -/
theorem C2_counterexample :
    ¬ ((TimeAdjust [0, 0, 0] 1 (1 / 2)).length / 1 =
      (round ((3 : ℚ) * (1 / 2))).toNat) := by
  have h2 : round ((3 : ℚ) * (1 / 2)) = 2 := by norm_num [round_eq]
  rw [h2]
  simp [TimeAdjust, qtrunc]
  norm_num

/-- C2, amended: the per-channel output length of `TimeAdjust` is the
truncation (floor) of `inputPerChannelLength * timeMultiplier`, not the
nearest integer: the output buffer has exactly
`qtrunc (numSrcSamples * timeMultiplier) * numChannels` slots. -/
theorem C2_output_length_truncates (input : Buf) (numChannels : ℕ)
    (timeMultiplier : ℚ) :
    (TimeAdjust input numChannels timeMultiplier).length =
      qtrunc (((input.length / numChannels : ℕ) : ℚ) * timeMultiplier) *
        numChannels := by
  simp [TimeAdjust]

/-- Shared indexing helper: slot `k * numChannels + channel` of the
`TimeAdjust` output is the fractional read at
`numSrcSamples * (k / (numOutSamples - 1))`. -/
lemma timeAdjust_getD (input : Buf) (numChannels k channel : ℕ) (T : ℚ)
    (hnc : 0 < numChannels) (hch : channel < numChannels)
    (hk : k < qtrunc (((input.length / numChannels : ℕ) : ℚ) * T)) :
    (TimeAdjust input numChannels T).getD (k * numChannels + channel) 0 =
      SampleChannelFractional input
        (((input.length / numChannels : ℕ) : ℚ) *
          ((k : ℚ) /
            ((qtrunc (((input.length / numChannels : ℕ) : ℚ) * T) - 1 : ℕ) :
              ℚ))) channel numChannels := by
  have hidx : k * numChannels + channel <
      qtrunc (((input.length / numChannels : ℕ) : ℚ) * T) * numChannels := by
    have ha : (k + 1) * numChannels ≤
        qtrunc (((input.length / numChannels : ℕ) : ℚ) * T) * numChannels :=
      Nat.mul_le_mul_right _ hk
    have hb : (k + 1) * numChannels = k * numChannels + numChannels := by
      ring
    omega
  have hdiv : (k * numChannels + channel) / numChannels = k := by
    rw [add_comm, mul_comm, Nat.add_mul_div_left _ _ hnc,
      Nat.div_eq_of_lt hch, Nat.zero_add]
  have hmod : (k * numChannels + channel) % numChannels = channel := by
    rw [add_comm, mul_comm, Nat.add_mul_mod_self_left, Nat.mod_eq_of_lt hch]
  simp only [TimeAdjust]
  rw [getD_map_range _ _ _ hidx, hdiv, hmod]

/-- C3 counterexample: `TimeAdjust` with `timeMultiplier = 1` is not the
identity.  For the mono input `[0, 0, 1]` the middle output frame reads the
source at position `3 * (1 / 2) = 1.5` (not at position `1`) and receives
the interpolated value `1/2`; every float operation involved is exact, so
the compiled program produces the same buffer. -/
theorem C3_counterexample : TimeAdjust [0, 0, 1] 1 1 ≠ [0, 0, 1] := by
  intro heq
  have e1 : (((List.length ([0, 0, 1] : Buf) / 1 : ℕ)) : ℚ) = 3 := by
    norm_num
  have e2 :
      qtrunc ((((List.length ([0, 0, 1] : Buf) / 1 : ℕ)) : ℚ) * 1) = 3 := by
    rw [e1]
    exact qtrunc_eval (by norm_num)
  have hscf : SampleChannelFractional [0, 0, 1] (3 / 2) 0 1 = 1 / 2 := by
    have hq : qtrunc ((3 : ℚ) / 2) = 1 := qtrunc_eval (by norm_num)
    have hfl : ((⌊(3 : ℚ) / 2⌋ : ℤ) : ℚ) = 1 := by norm_num
    simp only [SampleChannelFractional, tapIndices, hq, hfl]
    norm_num [CubicHermite, List.getD_cons_succ, List.getD_cons_zero,
      Nat.min_def]
  have h1 := timeAdjust_getD [0, 0, 1] 1 1 0 1 (by norm_num) (by norm_num)
    (by rw [e2]; norm_num)
  rw [e2, e1, heq] at h1
  rw [show (3 : ℚ) * (((1 : ℕ) : ℚ) / (((3 - 1 : ℕ)) : ℚ)) = 3 / 2 by
    norm_num] at h1
  rw [hscf] at h1
  norm_num [List.getD_cons_succ, List.getD_cons_zero] at h1

/-- C3, amended: `TimeAdjust` at `timeMultiplier = 1` preserves the buffer
length of an input evenly divisible by the channel count, but output frame
`k` reads the source at the rescaled position
`numSrcSamples * k / (numSrcSamples - 1)`, not at position `k`, so the
transform is not the identity in general. -/
theorem C3_resample_one_reads_rescaled_positions (input : Buf)
    (numChannels k channel : ℕ) (hnc : 0 < numChannels)
    (hdvd : numChannels ∣ input.length)
    (hns2 : 2 ≤ input.length / numChannels)
    (hk : k < input.length / numChannels) (hch : channel < numChannels) :
    (TimeAdjust input numChannels 1).length = input.length ∧
      (TimeAdjust input numChannels 1).getD (k * numChannels + channel) 0 =
        SampleChannelFractional input
          (((input.length / numChannels : ℕ) : ℚ) * k /
            (((input.length / numChannels : ℕ) : ℚ) - 1)) channel
          numChannels := by
  have hq : qtrunc (((input.length / numChannels : ℕ) : ℚ) * 1) =
      input.length / numChannels := by
    rw [mul_one, qtrunc_natCast]
  constructor
  · simp only [TimeAdjust, hq, List.length_map, List.length_range]
    exact Nat.div_mul_cancel hdvd
  · have hk' : k < qtrunc (((input.length / numChannels : ℕ) : ℚ) * 1) := by
      rw [hq]
      exact hk
    have hcast : (((input.length / numChannels - 1 : ℕ)) : ℚ) =
        ((input.length / numChannels : ℕ) : ℚ) - 1 := by
      have h1 : 1 ≤ input.length / numChannels := by omega
      push_cast [h1]
      ring
    rw [timeAdjust_getD input numChannels k channel 1 hnc hch hk', hq, hcast,
      mul_div_assoc]

/-- C3 witness: the amended statement at the concrete mono input
`[0, 0, 1]`, frame `1`: the middle output frame is the fractional read at
position `3 * 1 / 2`, and the length is preserved. -/
theorem C3_witness :
    (TimeAdjust [0, 0, 1] 1 1).length = 3 ∧
      (TimeAdjust [0, 0, 1] 1 1).getD (1 * 1 + 0) 0 =
        SampleChannelFractional [0, 0, 1]
          ((((3 : ℕ)) : ℚ) * 1 / ((((3 : ℕ)) : ℚ) - 1)) 0 1 :=
  C3_resample_one_reads_rescaled_positions [0, 0, 1] 1 1 0 (by norm_num)
    (by norm_num) (by norm_num) (by norm_num) (by norm_num)

/-- C5: for a non-empty buffer, each of the four clamped tap indices used by
the fractional sample reader is strictly below the buffer length, for every
non-negative read position, channel and channel count: no read is out of
bounds. -/
theorem C5_taps_in_bounds (input : Buf) (pos : ℚ) (channel numChannels : ℕ)
    (hne : input ≠ []) (_hpos : 0 ≤ pos) :
    (tapIndices input pos channel numChannels).1 < input.length ∧
      (tapIndices input pos channel numChannels).2.1 < input.length ∧
      (tapIndices input pos channel numChannels).2.2.1 < input.length ∧
      (tapIndices input pos channel numChannels).2.2.2 < input.length := by
  have hlen : 1 ≤ input.length := List.length_pos.mpr hne
  simp only [tapIndices]
  omega

/-- C5 witness: reading the two-sample mono buffer `[1, 2]` at the
out-of-range position `7/2` clamps all four taps below the length. -/
theorem C5_witness :
    (tapIndices [1, 2] (7 / 2) 0 1).1 < 2 ∧
      (tapIndices [1, 2] (7 / 2) 0 1).2.1 < 2 ∧
      (tapIndices [1, 2] (7 / 2) 0 1).2.2.1 < 2 ∧
      (tapIndices [1, 2] (7 / 2) 0 1).2.2.2 < 2 :=
  C5_taps_in_bounds [1, 2] (7 / 2) 0 1 (by simp) (by norm_num)

/-- C6: a fractional read at an exact integer per-channel position `i`
returns exactly the stored sample of that channel at `i`: the Hermite
evaluation at parameter `t = 0` yields the `B` tap with no interpolation
error. -/
theorem C6_integer_position_exact (input : Buf) (i channel numChannels : ℕ)
    (hnc : 0 < numChannels) (hch : channel < numChannels)
    (hi : i < input.length / numChannels) :
    SampleChannelFractional input (i : ℚ) channel numChannels =
      input.getD (i * numChannels + channel) 0 := by
  have h0 : (i + 1) * numChannels ≤ input.length :=
    (Nat.le_div_iff_mul_le hnc).mp (Nat.succ_le_of_lt hi)
  have h1 : (i + 1) * numChannels = i * numChannels + numChannels := by ring
  have hmin : min (i * numChannels + channel) (input.length - 1) =
      i * numChannels + channel := by omega
  have hq : qtrunc (i : ℚ) = i := qtrunc_natCast i
  have hfrac : (i : ℚ) - (⌊(i : ℚ)⌋ : ℚ) = 0 := by
    rw [Int.floor_natCast]
    push_cast
    ring
  simp only [SampleChannelFractional, tapIndices, hq, hfrac]
  rw [hmin]
  simp [CubicHermite]

/-- C6 witness: in the stereo buffer `[1, 2, 3, 4]`, reading channel `1` at
integer position `1` returns the stored sample `4`. -/
theorem C6_witness :
    SampleChannelFractional [1, 2, 3, 4] ((1 : ℕ) : ℚ) 1 2 =
      [1, 2, 3, 4].getD (1 * 2 + 1) 0 :=
  C6_integer_position_exact [1, 2, 3, 4] 1 1 2 (by norm_num) (by norm_num)
    (by norm_num)

/-- Source.cpp crossfade mode `ECrossFade` (lines 60-64). -/
inductive ECrossFade
  | None
  | In
  | Out
deriving DecidableEq

/-- Source.cpp `SplatGrainToOutput` envelope computation (lines 444-450):
`envelope = 1`; if a crossfade is requested and
`sample <= crossFadeSize` then `envelope = sample / crossFadeSize`; a
fade-out flips it to `1 - envelope`. -/
def envelopeFor (crossFade : ECrossFade) (crossFadeSize : ℕ) (sample : ℚ) :
    ℚ :=
  match crossFade with
  | .None => 1
  | .In =>
      if sample ≤ (crossFadeSize : ℚ) then sample / (crossFadeSize : ℚ)
      else 1
  | .Out =>
      1 - (if sample ≤ (crossFadeSize : ℚ) then sample / (crossFadeSize : ℚ)
        else 1)

/-- Source.cpp `SplatGrainToOutput` inner channel loop (lines 452-457):
add the enveloped fractional read of every channel into the output slots at
`outputIndex`. -/
def splatChannels (input : Buf) (numChannels : ℕ)
    (inputIndexSamples envelope : ℚ) (output : Buf) (outputIndex : ℕ) :
    Buf :=
  (List.range numChannels).foldl
    (fun out channel =>
      out.set (outputIndex + channel)
        (out.getD (outputIndex + channel) 0 +
          SampleChannelFractional input inputIndexSamples channel
              numChannels * envelope))
    output

/-- One iteration of the `SplatGrainToOutput` write loop (Source.cpp lines
435-461): the loop guard is `sample < grainSize`; an iteration exits the
loop (returning the output and the count written so far, `Sum.inl`) when
the guard fails, when the output slots would be out of bounds, or when the
input read position would be out of bounds; otherwise it writes one
enveloped frame and continues with the advanced cursors (`Sum.inr`). -/
def splatIter (input : Buf) (numChannels grainStart grainSize : ℕ)
    (crossFade : ECrossFade) (crossFadeSize : ℕ) (pitchMultiplier : ℚ)
    (output : Buf) (outputIndex : ℕ) (sample : ℚ)
    (numSamplesWritten : ℕ) : (Buf × ℕ) ⊕ (Buf × ℕ × ℚ × ℕ) :=
  if ¬ sample < (grainSize : ℚ) then Sum.inl (output, numSamplesWritten)
  else if output.length < outputIndex + numChannels then
    Sum.inl (output, numSamplesWritten)
  else
    let inputIndexSamples := (grainStart : ℚ) + sample
    if input.length <
        qtrunc inputIndexSamples * numChannels + numChannels then
      Sum.inl (output, numSamplesWritten)
    else
      Sum.inr (splatChannels input numChannels inputIndexSamples
          (envelopeFor crossFade crossFadeSize sample) output outputIndex,
        outputIndex + numChannels, sample + pitchMultiplier,
        numSamplesWritten + 1)

/-- Source.cpp `SplatGrainToOutput` main loop (lines 434-462), iterating
`splatIter`.  The loop is modelled with explicit fuel; `none` means the
fuel was exhausted before the loop finished. -/
def splatGo (input : Buf) (numChannels grainStart grainSize : ℕ)
    (crossFade : ECrossFade) (crossFadeSize : ℕ) (pitchMultiplier : ℚ) :
    ℕ → Buf → ℕ → ℚ → ℕ → Option (Buf × ℕ)
  | 0, _, _, _, _ => none
  | fuel + 1, output, outputIndex, sample, numSamplesWritten =>
    match splatIter input numChannels grainStart grainSize crossFade
        crossFadeSize pitchMultiplier output outputIndex sample
        numSamplesWritten with
    | Sum.inl r => some r
    | Sum.inr (o, oi, s, w) =>
        splatGo input numChannels grainStart grainSize crossFade
          crossFadeSize pitchMultiplier fuel o oi s w

/-- Source.cpp `SplatGrainToOutput` one-time warning logic (lines 464-477):
given the process-wide `reportedError` flag, return the updated flag and
whether this call printed the warning.  The warning fires only when the
grain is not final and `crossFadeSize > numSamplesWritten`, and only if the
flag was still unset. -/
def warnStep (reported isFinalGrain : Bool)
    (crossFadeSize numSamplesWritten : ℕ) : Bool × Bool :=
  if isFinalGrain = false ∧ numSamplesWritten < crossFadeSize then
    if reported = false then (true, true) else (reported, false)
  else (reported, false)

/-- Result of one `SplatGrainToOutput` call: the mutated output buffer, the
returned `numSamplesWritten`, the updated process-wide warning flag, and
whether this call emitted the warning. -/
structure SplatOut where
  out : Buf
  written : ℕ
  reported : Bool
  emitted : Bool
deriving DecidableEq

/-- Source.cpp `SplatGrainToOutput` (lines 424-481): run the write loop
starting at interleaved offset `outputSampleIndex * numChannels`, then apply
the warning logic to the written-sample count. -/
def SplatGrainToOutput (input output : Buf)
    (numChannels grainStart grainSize outputSampleIndex : ℕ)
    (crossFade : ECrossFade) (crossFadeSize : ℕ) (pitchMultiplier : ℚ)
    (isFinalGrain reported : Bool) (fuel : ℕ) : Option SplatOut :=
  (splatGo input numChannels grainStart grainSize crossFade crossFadeSize
      pitchMultiplier fuel output (outputSampleIndex * numChannels) 0 0).map
    fun r =>
      let w := warnStep reported isFinalGrain crossFadeSize r.2
      ⟨r.1, r.2, w.1, w.2⟩

/-- The channel loop never changes the output length. -/
lemma splatChannels_length (input : Buf) (numChannels : ℕ)
    (inputIndexSamples envelope : ℚ) (output : Buf) (outputIndex : ℕ) :
    (splatChannels input numChannels inputIndexSamples envelope output
      outputIndex).length = output.length := by
  unfold splatChannels
  generalize List.range numChannels = l
  induction l generalizing output with
  | nil => rfl
  | cons c cs ih => rw [List.foldl_cons, ih, List.length_set]

/-- An exiting iteration returns exactly the state it was given. -/
lemma splatIter_inl (input : Buf)
    (numChannels grainStart grainSize crossFadeSize : ℕ)
    (crossFade : ECrossFade) (pitchMultiplier : ℚ) (output : Buf)
    (outputIndex : ℕ) (sample : ℚ) (written : ℕ) (r : Buf × ℕ)
    (h : splatIter input numChannels grainStart grainSize crossFade
      crossFadeSize pitchMultiplier output outputIndex sample written =
      Sum.inl r) : r = (output, written) := by
  simp only [splatIter] at h
  split_ifs at h
  all_goals simp_all

/-- A continuing iteration advances the cursors by one frame, preserves the
output length, and only happens while the frame fits in the output. -/
lemma splatIter_inr (input : Buf)
    (numChannels grainStart grainSize crossFadeSize : ℕ)
    (crossFade : ECrossFade) (pitchMultiplier : ℚ) (output : Buf)
    (outputIndex : ℕ) (sample : ℚ) (written : ℕ) (o : Buf) (oi : ℕ)
    (s : ℚ) (w : ℕ)
    (h : splatIter input numChannels grainStart grainSize crossFade
      crossFadeSize pitchMultiplier output outputIndex sample written =
      Sum.inr (o, oi, s, w)) :
    o.length = output.length ∧ oi = outputIndex + numChannels ∧
      w = written + 1 ∧ outputIndex + numChannels ≤ output.length := by
  simp only [splatIter] at h
  split_ifs at h with h1 h2 h3
  simp only [Sum.inr.injEq, Prod.mk.injEq] at h
  obtain ⟨ho, hoi, hs, hw⟩ := h
  exact ⟨by rw [← ho, splatChannels_length], hoi.symm, hw.symm, by omega⟩

/-- Loop invariant of the write loop: the written counter only grows, and
whenever it grows, the interleaved cursor reached by the final write stays
within the output buffer. -/
lemma splatGo_bound (input : Buf)
    (numChannels grainStart grainSize crossFadeSize : ℕ)
    (crossFade : ECrossFade) (pitchMultiplier : ℚ) :
    ∀ fuel output outputIndex (sample : ℚ) written out2 w2,
      splatGo input numChannels grainStart grainSize crossFade crossFadeSize
        pitchMultiplier fuel output outputIndex sample written =
          some (out2, w2) →
      written ≤ w2 ∧ (w2 = written ∨
        outputIndex + (w2 - written) * numChannels ≤ output.length) := by
  intro fuel
  induction fuel with
  | zero =>
      intro output outputIndex sample written out2 w2 h
      simp [splatGo] at h
  | succ f ih =>
      intro output outputIndex sample written out2 w2 h
      rw [splatGo] at h
      cases hit : splatIter input numChannels grainStart grainSize crossFade
          crossFadeSize pitchMultiplier output outputIndex sample written
        with
      | inl r =>
          rw [hit] at h
          rw [splatIter_inl input numChannels grainStart grainSize
            crossFadeSize crossFade pitchMultiplier output outputIndex
            sample written r hit] at h
          simp only [Option.some.injEq, Prod.mk.injEq] at h
          obtain ⟨rfl, rfl⟩ := h
          exact ⟨le_refl _, Or.inl rfl⟩
      | inr st =>
          obtain ⟨o, oi, s, w⟩ := st
          rw [hit] at h
          obtain ⟨hlen, hoi, hw, hle⟩ := splatIter_inr input numChannels
            grainStart grainSize crossFadeSize crossFade pitchMultiplier
            output outputIndex sample written o oi s w hit
          subst hoi
          subst hw
          obtain ⟨hw2, hcase⟩ := ih _ _ _ _ _ _ h
          rw [hlen] at hcase
          refine ⟨by omega, Or.inr ?_⟩
          rcases hcase with hc | hc
          · have he : w2 - written = 1 := by omega
            rw [he, one_mul]
            omega
          · have he : w2 - (written + 1) = w2 - written - 1 := by omega
            rw [he] at hc
            have hmul : (w2 - written) * numChannels =
                (w2 - written - 1) * numChannels + numChannels := by
              have hsp : w2 - written = w2 - written - 1 + 1 := by omega
              calc (w2 - written) * numChannels
                  = (w2 - written - 1 + 1) * numChannels := by rw [← hsp]
                _ = (w2 - written - 1) * numChannels + numChannels := by
                    ring
            omega

/-- More fuel never changes a run of the write loop that already finished. -/
lemma splatGo_mono (input : Buf)
    (numChannels grainStart grainSize crossFadeSize : ℕ)
    (crossFade : ECrossFade) (pitchMultiplier : ℚ) :
    ∀ fuel output outputIndex (sample : ℚ) written r,
      splatGo input numChannels grainStart grainSize crossFade crossFadeSize
        pitchMultiplier fuel output outputIndex sample written = some r →
      splatGo input numChannels grainStart grainSize crossFade crossFadeSize
        pitchMultiplier (fuel + 1) output outputIndex sample written =
        some r := by
  intro fuel
  induction fuel with
  | zero =>
      intro output outputIndex sample written r h
      simp [splatGo] at h
  | succ f ih =>
      intro output outputIndex sample written r h
      rw [splatGo] at h ⊢
      cases hit : splatIter input numChannels grainStart grainSize crossFade
          crossFadeSize pitchMultiplier output outputIndex sample written
        with
      | inl r2 =>
          rw [hit] at h
          exact h
      | inr st =>
          obtain ⟨o, oi, s, w⟩ := st
          rw [hit] at h
          exact ih _ _ _ _ _ h

/-- Fuel monotonicity of the write loop, general form. -/
lemma splatGo_mono_le (input : Buf)
    (numChannels grainStart grainSize crossFadeSize : ℕ)
    (crossFade : ECrossFade) (pitchMultiplier : ℚ) (f1 f2 : ℕ)
    (hf : f1 ≤ f2) (output : Buf) (outputIndex : ℕ) (sample : ℚ)
    (written : ℕ) (r : Buf × ℕ)
    (h : splatGo input numChannels grainStart grainSize crossFade
      crossFadeSize pitchMultiplier f1 output outputIndex sample written =
      some r) :
    splatGo input numChannels grainStart grainSize crossFade crossFadeSize
      pitchMultiplier f2 output outputIndex sample written = some r := by
  induction f2, hf using Nat.le_induction with
  | base => exact h
  | succ n hn ih =>
      exact splatGo_mono input numChannels grainStart grainSize
        crossFadeSize crossFade pitchMultiplier n output outputIndex sample
        written r ih

/-- C4: if the write loop of the Grain Writer returns, the reported
written-sample count never runs past the output buffer:
`outputSampleIndex + written <= output length / numChannels`, for every
pitch multiplier, grain size, crossfade mode and fuel. -/
theorem C4_writer_never_overruns (input output : Buf)
    (numChannels grainStart grainSize outputSampleIndex crossFadeSize
      fuel : ℕ) (crossFade : ECrossFade) (pitchMultiplier : ℚ)
    (isFinalGrain reported : Bool) (r : SplatOut) (hnc : 0 < numChannels)
    (hoff : outputSampleIndex ≤ output.length / numChannels)
    (h : SplatGrainToOutput input output numChannels grainStart grainSize
      outputSampleIndex crossFade crossFadeSize pitchMultiplier isFinalGrain
      reported fuel = some r) :
    outputSampleIndex + r.written ≤ output.length / numChannels := by
  unfold SplatGrainToOutput at h
  cases hsp : splatGo input numChannels grainStart grainSize crossFade
      crossFadeSize pitchMultiplier fuel output
      (outputSampleIndex * numChannels) 0 0 with
  | none => rw [hsp] at h; simp at h
  | some p =>
      obtain ⟨out2, w2⟩ := p
      rw [hsp] at h
      simp only [Option.map_some', Option.some.injEq] at h
      subst h
      have hb := splatGo_bound input numChannels grainStart grainSize
        crossFadeSize crossFade pitchMultiplier fuel output
        (outputSampleIndex * numChannels) 0 0 out2 w2 hsp
      show outputSampleIndex + w2 ≤ output.length / numChannels
      rcases hb.2 with hc | hc
      · omega
      · rw [Nat.sub_zero] at hc
        have hle : (outputSampleIndex + w2) * numChannels ≤
            output.length := by
          have hsum : (outputSampleIndex + w2) * numChannels =
              outputSampleIndex * numChannels + w2 * numChannels := by ring
          omega
        exact (Nat.le_div_iff_mul_le hnc).mpr hle

/-- C4 witness: a concrete mono call starting at offset `1` into a 3-slot
output with grain size `5` stops silently after two writes, and
`1 + 2 <= 3`. -/
theorem C4_witness :
    1 + (SplatOut.mk [0, 0, 0] 2 false false).written ≤
      List.length ([0, 0, 0] : Buf) / 1 :=
  C4_writer_never_overruns [0, 0, 0] [0, 0, 0] 1 0 5 1 0 10 ECrossFade.None
    1 true false (SplatOut.mk [0, 0, 0] 2 false false) (by norm_num)
    (by norm_num)
    (by norm_num [SplatGrainToOutput, splatGo, splatIter, splatChannels,
      envelopeFor, warnStep, SampleChannelFractional, tapIndices,
      CubicHermite, qtrunc_q0, qtrunc_q1, qtrunc_q2, qtrunc_q3, qtrunc_q4,
      Nat.min_def, List.range_succ, List.range_zero, List.foldl_append,
      List.foldl_cons, List.foldl_nil,
      List.getD_cons_succ, List.getD_cons_zero, List.set_cons_succ,
      List.set_cons_zero, List.getD_eq_getElem?_getD,
      List.getElem?_cons_zero, List.getElem?_cons_succ])

/-- A single Grain Writer call as seen by the warning mechanism: whether the
grain was final, the requested crossfade length, and the written-sample
count the call returned. -/
structure WarnCall where
  isFinalGrain : Bool
  crossFadeSize : ℕ
  numSamplesWritten : ℕ

/-- The sequence of warning emissions across a list of Grain Writer calls,
threading the process-wide `reportedError` flag exactly as the static local
of Source.cpp lines 469-477 does. -/
def warnRun : Bool → List WarnCall → List Bool
  | _, [] => []
  | reported, c :: cs =>
      let s := warnStep reported c.isFinalGrain c.crossFadeSize
        c.numSamplesWritten
      s.2 :: warnRun s.1 cs

/-- Once the flag is set, no further call emits. -/
lemma warnRun_true_count (calls : List WarnCall) :
    (warnRun true calls).count true = 0 := by
  induction calls with
  | nil => rfl
  | cons c cs ih =>
      have hs : warnStep true c.isFinalGrain c.crossFadeSize
          c.numSamplesWritten = (true, false) := by
        unfold warnStep
        split_ifs <;> simp_all
      simp [warnRun, hs, ih]

/-- Starting from any flag state, at most one call emits. -/
lemma warnRun_count_le_one (calls : List WarnCall) (reported : Bool) :
    (warnRun reported calls).count true ≤ 1 := by
  induction calls generalizing reported with
  | nil => simp [warnRun]
  | cons c cs ih =>
      by_cases hrep : reported = true
      · subst hrep
        have := warnRun_true_count (c :: cs)
        omega
      · replace hrep : reported = false := by
          cases reported <;> simp_all
        subst hrep
        unfold warnRun warnStep
        split_ifs with hcond hflag
        · simp [List.count_cons, warnRun_true_count]
        · exact absurd rfl hflag
        · simpa [List.count_cons] using ih false

/-- An emission happens only on a non-final grain whose written count is
below the crossfade length. -/
lemma warnRun_emitted_cond (calls : List WarnCall) (reported : Bool) :
    ∀ p ∈ calls.zip (warnRun reported calls), p.2 = true →
      p.1.isFinalGrain = false ∧
        p.1.numSamplesWritten < p.1.crossFadeSize := by
  induction calls generalizing reported with
  | nil => simp [warnRun]
  | cons c cs ih =>
      intro p hp hem
      rw [warnRun, List.zip_cons_cons, List.mem_cons] at hp
      rcases hp with hp | hp
      · subst hp
        simp only at hem
        unfold warnStep at hem
        split_ifs at hem with h1 h2
        all_goals simp_all
      · exact ih _ _ hp hem

/-- C7: across any sequence of Grain Writer calls in one process (the
warning flag starting unset), the crossfade advisory is emitted at most
once in total, and only by a call whose grain is not final and whose
written-sample count is below the crossfade length.  The warning logic
returns normally in every case: it never aborts the run. -/
theorem C7_warning_fires_at_most_once (calls : List WarnCall) :
    (warnRun false calls).count true ≤ 1 ∧
      ∀ p ∈ calls.zip (warnRun false calls), p.2 = true →
        p.1.isFinalGrain = false ∧
          p.1.numSamplesWritten < p.1.crossFadeSize :=
  ⟨warnRun_count_le_one calls false, warnRun_emitted_cond calls false⟩

/-- C7 witness: two consecutive offending calls (non-final grain, crossfade
`5`, only `2` samples written) emit exactly one warning in total. -/
theorem C7_witness :
    (warnRun false [WarnCall.mk false 5 2, WarnCall.mk false 5 2]).count
        true ≤ 1 ∧
      ∀ p ∈ ([WarnCall.mk false 5 2, WarnCall.mk false 5 2]).zip
        (warnRun false [WarnCall.mk false 5 2, WarnCall.mk false 5 2]),
        p.2 = true →
        p.1.isFinalGrain = false ∧
          p.1.numSamplesWritten < p.1.crossFadeSize :=
  C7_warning_fires_at_most_once [WarnCall.mk false 5 2, WarnCall.mk false 5 2]

/-- C10: the tap clamp is to the last interleaved slot, so near the end of a
two-channel buffer a read of channel `0` depends on the last stored sample
of channel `1`: at position `3/2` the `i+1` tap clamps to interleaved slot
`3` (channel 1's last sample), and two buffers that differ only in that slot
give different channel-0 reads. -/
theorem C10_clamp_crosses_channels :
    (tapIndices [0, 0, 0, 1] (3 / 2) 0 2).2.2.1 = 3 ∧
      SampleChannelFractional [0, 0, 0, 0] (3 / 2) 0 2 ≠
        SampleChannelFractional [0, 0, 0, 1] (3 / 2) 0 2 := by
  have hfloor : (⌊(3 : ℚ) / 2⌋ : ℤ) = 1 := by norm_num
  constructor
  · norm_num [tapIndices, qtrunc, hfloor]
  · norm_num [SampleChannelFractional, tapIndices, qtrunc, hfloor,
      CubicHermite, List.getD_cons_succ, List.getD_cons_zero]

/-- State of the granular engine loops (Source.cpp lines 506-507): the
output buffer, the per-channel output cursor `outputSampleIndex`, the last
grain written (`none` models the `size_t(-1)` sentinel), and the
process-wide warning flag. -/
structure GState where
  output : Buf
  outputSampleIndex : ℕ
  lastGrainWritten : Option ℕ
  reported : Bool
deriving DecidableEq

/-- Source.cpp `GranularTimePitchAdjust` while-loop body (lines 521-547).
The C++ guard `lastGrainWritten == -1 || lastGrainWritten == grain - 1`
compares `size_t` values; with the sentinel modelled as `none`, the second
disjunct is `0 < grain ∧ lastGrainWritten = some (grain - 1)` because for
`grain = 0` the C++ right-hand side is `SIZE_MAX`, matched only by the
sentinel (already covered by the first disjunct).  In the crossfade branch
the fade-out write's returned count is dropped; only the fade-in write's
count advances the cursor. -/
def granularStep (input : Buf)
    (numChannels grainSizeSamples crossFadeSizeSamples : ℕ)
    (pitchMultiplier : ℚ) (numGrains grain splatFuel : ℕ) (st : GState) :
    Option GState :=
  let inputGrainStart := grain * grainSizeSamples
  let isFinalGrain := grain == numGrains - 1
  if st.lastGrainWritten = none ∨
      (0 < grain ∧ st.lastGrainWritten = some (grain - 1)) then
    (SplatGrainToOutput input st.output numChannels inputGrainStart
        grainSizeSamples st.outputSampleIndex ECrossFade.None
        crossFadeSizeSamples pitchMultiplier isFinalGrain st.reported
        splatFuel).map
      fun r =>
        ⟨r.out, st.outputSampleIndex + r.written, some grain, r.reported⟩
  else
    (SplatGrainToOutput input st.output numChannels
        ((st.lastGrainWritten.getD 0 + 1) * grainSizeSamples)
        grainSizeSamples st.outputSampleIndex ECrossFade.Out
        crossFadeSizeSamples pitchMultiplier isFinalGrain st.reported
        splatFuel).bind
      fun r1 =>
        (SplatGrainToOutput input r1.out numChannels inputGrainStart
            grainSizeSamples st.outputSampleIndex ECrossFade.In
            crossFadeSizeSamples pitchMultiplier isFinalGrain r1.reported
            splatFuel).map
          fun r2 =>
            ⟨r2.out, st.outputSampleIndex + r2.written, some grain,
              r2.reported⟩

/-- Source.cpp `GranularTimePitchAdjust` inner while loop (lines 521-547):
repeat the step until the output cursor reaches `windowEnd`.  Modelled with
fuel; `none` for every fuel models non-termination. -/
def granularWhile (input : Buf)
    (numChannels grainSizeSamples crossFadeSizeSamples : ℕ)
    (pitchMultiplier : ℚ) (numGrains grain windowEnd splatFuel : ℕ) :
    ℕ → GState → Option GState
  | 0, _ => none
  | fuel + 1, st =>
    if st.outputSampleIndex < windowEnd then
      (granularStep input numChannels grainSizeSamples crossFadeSizeSamples
          pitchMultiplier numGrains grain splatFuel st).bind
        (granularWhile input numChannels grainSizeSamples
          crossFadeSizeSamples pitchMultiplier numGrains grain windowEnd
          splatFuel fuel)
    else some st

/-- Source.cpp `GranularTimePitchAdjust` outer for loop over grains (lines
508-548): for each grain compute its output window end
`size_t((inputGrainStart + grainSizeSamples) * timeMultiplier)` and run the
inner while loop. -/
def granularGrainsGo (input : Buf)
    (numChannels grainSizeSamples crossFadeSizeSamples : ℕ)
    (pitchMultiplier timeMultiplier : ℚ)
    (numGrains splatFuel whileFuel : ℕ) :
    List ℕ → GState → Option GState
  | [], st => some st
  | grain :: rest, st =>
    (granularWhile input numChannels grainSizeSamples crossFadeSizeSamples
        pitchMultiplier numGrains grain
        (qtrunc (((grain * grainSizeSamples + grainSizeSamples : ℕ) : ℚ) *
          timeMultiplier)) splatFuel whileFuel st).bind
      (granularGrainsGo input numChannels grainSizeSamples
        crossFadeSizeSamples pitchMultiplier timeMultiplier numGrains
        splatFuel whileFuel rest)

/-- Source.cpp `GranularTimePitchAdjust` (lines 483-549): allocate the
zero-filled output of `size_t(numInputSamples * timeMultiplier)` frames,
derive the grain count (rounding up) and crossfade size, and run the grain
loop from the initial state (cursor `0`, sentinel last-grain, warning flag
unset). -/
def GranularTimePitchAdjust (input : Buf) (numChannels sampleRate : ℕ)
    (timeMultiplier pitchMultiplier grainSizeSeconds crossFadeSeconds : ℚ)
    (whileFuel splatFuel : ℕ) : Option Buf :=
  let numInputSamples := input.length / numChannels
  let numOutputSamples := qtrunc ((numInputSamples : ℚ) * timeMultiplier)
  let grainSizeSamples := qtrunc ((sampleRate : ℚ) * grainSizeSeconds)
  let numGrains := numInputSamples / grainSizeSamples +
    (if numInputSamples % grainSizeSamples = 0 then 0 else 1)
  let crossFadeSizeSamples := qtrunc ((sampleRate : ℚ) * crossFadeSeconds)
  (granularGrainsGo input numChannels grainSizeSamples crossFadeSizeSamples
      pitchMultiplier timeMultiplier numGrains splatFuel whileFuel
      (List.range numGrains)
      ⟨List.replicate (numOutputSamples * numChannels) 0, 0, none, false⟩).map
    GState.output

/-- C8: whenever the last grain written is neither the sentinel nor grain
`grain - 1`, the engine step issues a fade-out write of the grain after
`lastGrainWritten` at the current cursor and a fade-in write of grain
`grain` at that same cursor, and the new state advances the cursor by
exactly the fade-in write's count `r2.written`, discarding the fade-out
count `r1.written`. -/
theorem C8_splice_two_writes_same_offset (input : Buf)
    (numChannels grainSizeSamples crossFadeSizeSamples numGrains grain
      splatFuel : ℕ) (pitchMultiplier : ℚ) (st : GState) (r1 r2 : SplatOut)
    (hcond : ¬ (st.lastGrainWritten = none ∨
      (0 < grain ∧ st.lastGrainWritten = some (grain - 1))))
    (h1 : SplatGrainToOutput input st.output numChannels
      ((st.lastGrainWritten.getD 0 + 1) * grainSizeSamples) grainSizeSamples
      st.outputSampleIndex ECrossFade.Out crossFadeSizeSamples
      pitchMultiplier (grain == numGrains - 1) st.reported splatFuel =
      some r1)
    (h2 : SplatGrainToOutput input r1.out numChannels
      (grain * grainSizeSamples) grainSizeSamples st.outputSampleIndex
      ECrossFade.In crossFadeSizeSamples pitchMultiplier
      (grain == numGrains - 1) r1.reported splatFuel = some r2) :
    granularStep input numChannels grainSizeSamples crossFadeSizeSamples
      pitchMultiplier numGrains grain splatFuel st =
      some ⟨r2.out, st.outputSampleIndex + r2.written, some grain,
        r2.reported⟩ := by
  simp only [granularStep]
  rw [if_neg hcond, h1, Option.some_bind, h2, Option.map_some']

set_option maxHeartbeats 1000000 in
/-- C8 witness: a concrete splice.  With input `[0, 0, 0]`, grain size `2`,
crossfade `1`, repeating grain `0` (last written is already `0`): the
fade-out write of grain `1` at cursor `2` writes `1` sample which is
discarded, and the fade-in write of grain `0` at the same cursor writes `2`
samples, advancing the cursor to `4`. -/
theorem C8_witness :
    granularStep [0, 0, 0] 1 2 1 1 2 0 3
      (GState.mk [0, 0, 0, 0, 0, 0] 2 (some 0) false) =
      some ⟨(SplatOut.mk [0, 0, 0, 0, 0, 0] 2 false false).out,
        2 + (SplatOut.mk [0, 0, 0, 0, 0, 0] 2 false false).written,
        some 0, (SplatOut.mk [0, 0, 0, 0, 0, 0] 2 false false).reported⟩ :=
  C8_splice_two_writes_same_offset [0, 0, 0] 1 2 1 2 0 3 1
    (GState.mk [0, 0, 0, 0, 0, 0] 2 (some 0) false)
    (SplatOut.mk [0, 0, 0, 0, 0, 0] 1 false false)
    (SplatOut.mk [0, 0, 0, 0, 0, 0] 2 false false)
    (by simp)
    (by norm_num [SplatGrainToOutput, splatGo, splatIter, splatChannels,
      envelopeFor, warnStep, SampleChannelFractional, tapIndices,
      CubicHermite, qtrunc_q0, qtrunc_q1, qtrunc_q2, qtrunc_q3, qtrunc_q4,
      Nat.min_def, List.range_succ, List.range_zero,
      List.foldl_append, List.foldl_cons, List.foldl_nil,
      List.getD_cons_succ, List.getD_cons_zero, List.set_cons_succ,
      List.set_cons_zero, List.getD_eq_getElem?_getD,
      List.getElem?_cons_zero, List.getElem?_cons_succ])
    (by norm_num [SplatGrainToOutput, splatGo, splatIter, splatChannels,
      envelopeFor, warnStep, SampleChannelFractional, tapIndices,
      CubicHermite, qtrunc_q0, qtrunc_q1, qtrunc_q2, qtrunc_q3, qtrunc_q4,
      Nat.min_def, List.range_succ, List.range_zero,
      List.foldl_append, List.foldl_cons, List.foldl_nil,
      List.getD_cons_succ, List.getD_cons_zero, List.set_cons_succ,
      List.set_cons_zero, List.getD_eq_getElem?_getD,
      List.getElem?_cons_zero, List.getElem?_cons_succ])

/-- Concrete write-loop run for the stuck trace: grain 0 of the input
`[0, 0, 0]` (grain size 2) written plainly at cursor 0 writes 2 samples
whenever the loop finishes. -/
lemma c1_splat_g0 (sf : ℕ) :
    splatGo [0, 0, 0] 1 0 2 ECrossFade.None 0 1 sf [0, 0, 0] 0 0 0 =
        none ∨
      splatGo [0, 0, 0] 1 0 2 ECrossFade.None 0 1 sf [0, 0, 0] 0 0 0 =
        some ([0, 0, 0], 2) := by
  match sf with
  | 0 => exact Or.inl rfl
  | 1 =>
      refine Or.inl ?_
      norm_num [splatGo, splatIter, splatChannels, envelopeFor,
        SampleChannelFractional, tapIndices, CubicHermite, qtrunc_q0,
        qtrunc_q1, qtrunc_q2, Nat.min_def, List.range_succ, List.range_zero,
        List.foldl_append, List.foldl_cons, List.foldl_nil,
        List.getD_cons_succ, List.getD_cons_zero, List.set_cons_succ,
        List.set_cons_zero, List.getD_eq_getElem?_getD,
        List.getElem?_cons_zero, List.getElem?_cons_succ]
  | 2 =>
      refine Or.inl ?_
      norm_num [splatGo, splatIter, splatChannels, envelopeFor,
        SampleChannelFractional, tapIndices, CubicHermite, qtrunc_q0,
        qtrunc_q1, qtrunc_q2, Nat.min_def, List.range_succ, List.range_zero,
        List.foldl_append, List.foldl_cons, List.foldl_nil,
        List.getD_cons_succ, List.getD_cons_zero, List.set_cons_succ,
        List.set_cons_zero, List.getD_eq_getElem?_getD,
        List.getElem?_cons_zero, List.getElem?_cons_succ]
  | (n + 3) =>
      refine Or.inr (splatGo_mono_le [0, 0, 0] 1 0 2 0 ECrossFade.None 1 3
        (n + 3) (by omega) [0, 0, 0] 0 0 0 ([0, 0, 0], 2) ?_)
      norm_num [splatGo, splatIter, splatChannels, envelopeFor,
        SampleChannelFractional, tapIndices, CubicHermite, qtrunc_q0,
        qtrunc_q1, qtrunc_q2, Nat.min_def, List.range_succ, List.range_zero,
        List.foldl_append, List.foldl_cons, List.foldl_nil,
        List.getD_cons_succ, List.getD_cons_zero, List.set_cons_succ,
        List.set_cons_zero, List.getD_eq_getElem?_getD,
        List.getElem?_cons_zero, List.getElem?_cons_succ]

/-- Concrete write-loop run: grain 1 (input samples `[2, 4)` of a 3-sample
input) written plainly at cursor 2 stops after 1 sample (input exhausted,
then output full). -/
lemma c1_splat_g1 (sf : ℕ) :
    splatGo [0, 0, 0] 1 2 2 ECrossFade.None 0 1 sf [0, 0, 0] 2 0 0 =
        none ∨
      splatGo [0, 0, 0] 1 2 2 ECrossFade.None 0 1 sf [0, 0, 0] 2 0 0 =
        some ([0, 0, 0], 1) := by
  match sf with
  | 0 => exact Or.inl rfl
  | 1 =>
      refine Or.inl ?_
      norm_num [splatGo, splatIter, splatChannels, envelopeFor,
        SampleChannelFractional, tapIndices, CubicHermite, qtrunc_q0,
        qtrunc_q1, qtrunc_q2, qtrunc_q3, Nat.min_def, List.range_succ,
        List.range_zero, List.foldl_append, List.foldl_cons, List.foldl_nil,
        List.getD_cons_succ, List.getD_cons_zero, List.set_cons_succ,
        List.set_cons_zero, List.getD_eq_getElem?_getD,
        List.getElem?_cons_zero, List.getElem?_cons_succ]
  | (n + 2) =>
      refine Or.inr (splatGo_mono_le [0, 0, 0] 1 2 2 0 ECrossFade.None 1 2
        (n + 2) (by omega) [0, 0, 0] 2 0 0 ([0, 0, 0], 1) ?_)
      norm_num [splatGo, splatIter, splatChannels, envelopeFor,
        SampleChannelFractional, tapIndices, CubicHermite, qtrunc_q0,
        qtrunc_q1, qtrunc_q2, qtrunc_q3, Nat.min_def, List.range_succ,
        List.range_zero, List.foldl_append, List.foldl_cons, List.foldl_nil,
        List.getD_cons_succ, List.getD_cons_zero, List.set_cons_succ,
        List.set_cons_zero, List.getD_eq_getElem?_getD,
        List.getElem?_cons_zero, List.getElem?_cons_succ]

/-- Concrete write-loop run: the fade-out write of grain 2 at cursor 3
writes nothing (the output is already full). -/
lemma c1_splat_out (sf : ℕ) :
    splatGo [0, 0, 0] 1 4 2 ECrossFade.Out 0 1 sf [0, 0, 0] 3 0 0 =
        none ∨
      splatGo [0, 0, 0] 1 4 2 ECrossFade.Out 0 1 sf [0, 0, 0] 3 0 0 =
        some ([0, 0, 0], 0) := by
  match sf with
  | 0 => exact Or.inl rfl
  | (n + 1) =>
      refine Or.inr (splatGo_mono_le [0, 0, 0] 1 4 2 0 ECrossFade.Out 1 1
        (n + 1) (by omega) [0, 0, 0] 3 0 0 ([0, 0, 0], 0) ?_)
      norm_num [splatGo, splatIter]

/-- Concrete write-loop run: the fade-in write of grain 1 at cursor 3
writes nothing (the output is already full). -/
lemma c1_splat_into (sf : ℕ) :
    splatGo [0, 0, 0] 1 2 2 ECrossFade.In 0 1 sf [0, 0, 0] 3 0 0 =
        none ∨
      splatGo [0, 0, 0] 1 2 2 ECrossFade.In 0 1 sf [0, 0, 0] 3 0 0 =
        some ([0, 0, 0], 0) := by
  match sf with
  | 0 => exact Or.inl rfl
  | (n + 1) =>
      refine Or.inr (splatGo_mono_le [0, 0, 0] 1 2 2 0 ECrossFade.In 1 1
        (n + 1) (by omega) [0, 0, 0] 3 0 0 ([0, 0, 0], 0) ?_)
      norm_num [splatGo, splatIter]

/-- Engine step from the initial state on grain 0: writes grain 0 plainly
and advances the cursor to 2 (whenever the inner loop finishes). -/
lemma c1_step_S0 (sf : ℕ) :
    granularStep [0, 0, 0] 1 2 0 1 2 0 sf
        (GState.mk [0, 0, 0] 0 none false) = none ∨
      granularStep [0, 0, 0] 1 2 0 1 2 0 sf
        (GState.mk [0, 0, 0] 0 none false) =
        some (GState.mk [0, 0, 0] 2 (some 0) false) := by
  rcases c1_splat_g0 sf with h | h
  · exact Or.inl (by simp [granularStep, SplatGrainToOutput, h])
  · exact Or.inr (by simp [granularStep, SplatGrainToOutput, h, warnStep])

/-- Engine step from cursor 2 on grain 1 (previous grain written): writes
the truncated final grain and advances the cursor to 3. -/
lemma c1_step_S1 (sf : ℕ) :
    granularStep [0, 0, 0] 1 2 0 1 2 1 sf
        (GState.mk [0, 0, 0] 2 (some 0) false) = none ∨
      granularStep [0, 0, 0] 1 2 0 1 2 1 sf
        (GState.mk [0, 0, 0] 2 (some 0) false) =
        some (GState.mk [0, 0, 0] 3 (some 1) false) := by
  rcases c1_splat_g1 sf with h | h
  · exact Or.inl (by simp [granularStep, SplatGrainToOutput, h])
  · exact Or.inr (by simp [granularStep, SplatGrainToOutput, h, warnStep])

/-- Engine step from the stuck state: the splice branch writes nothing at
the full output and leaves the state unchanged. -/
lemma c1_step_S2 (sf : ℕ) :
    granularStep [0, 0, 0] 1 2 0 1 2 1 sf
        (GState.mk [0, 0, 0] 3 (some 1) false) = none ∨
      granularStep [0, 0, 0] 1 2 0 1 2 1 sf
        (GState.mk [0, 0, 0] 3 (some 1) false) =
        some (GState.mk [0, 0, 0] 3 (some 1) false) := by
  rcases c1_splat_out sf with h1 | h1
  · exact Or.inl (by simp [granularStep, SplatGrainToOutput, h1])
  · rcases c1_splat_into sf with h2 | h2
    · exact Or.inl
        (by simp [granularStep, SplatGrainToOutput, h1, h2, warnStep])
    · exact Or.inr
        (by simp [granularStep, SplatGrainToOutput, h1, h2, warnStep])

/-- The inner while loop of the final grain never reaches its window end
from the stuck state: the cursor stays at 3 while the window end is 4, for
every fuel. -/
lemma c1_while_stuck (wf : ℕ) : ∀ sf : ℕ,
    granularWhile [0, 0, 0] 1 2 0 1 2 1 4 sf wf
      (GState.mk [0, 0, 0] 3 (some 1) false) = none := by
  induction wf with
  | zero => intro sf; rfl
  | succ w ih =>
      intro sf
      rcases c1_step_S2 sf with h | h
      · simp [granularWhile, h]
      · simp [granularWhile, h, ih sf]

/-- The final grain's while loop diverges from the state reached after the
plain writes: one step reaches the stuck state, which never progresses. -/
lemma c1_while_g1 (wf sf : ℕ) :
    granularWhile [0, 0, 0] 1 2 0 1 2 1 4 sf wf
      (GState.mk [0, 0, 0] 2 (some 0) false) = none := by
  cases wf with
  | zero => rfl
  | succ w =>
      rcases c1_step_S1 sf with h | h
      · simp [granularWhile, h]
      · simp [granularWhile, h, c1_while_stuck w sf]

/-- Grain 0's while loop either runs out of fuel or stops at cursor 2. -/
lemma c1_while_g0 (wf sf : ℕ) :
    granularWhile [0, 0, 0] 1 2 0 1 2 0 2 sf wf
        (GState.mk [0, 0, 0] 0 none false) = none ∨
      granularWhile [0, 0, 0] 1 2 0 1 2 0 2 sf wf
        (GState.mk [0, 0, 0] 0 none false) =
        some (GState.mk [0, 0, 0] 2 (some 0) false) := by
  cases wf with
  | zero => exact Or.inl rfl
  | succ w =>
      rcases c1_step_S0 sf with h | h
      · exact Or.inl (by simp [granularWhile, h])
      · cases w with
        | zero => exact Or.inl (by simp [granularWhile, h])
        | succ w2 => exact Or.inr (by simp [granularWhile, h])

/-- C1: the granular engine `Process` does not terminate on every valid
input.  For the 3-sample mono input `[0, 0, 0]` at sample rate 4 with
`timeMultiplier = 1`, `pitchMultiplier = 1`, grain size `0.5 s`
(= 2 samples) and no crossfade, the final grain's window end (4) exceeds
the allocated output length (3); once the output is full every Grain
Writer call returns 0 samples and the per-grain while loop never reaches
its window end: the run returns no result for any amount of fuel.  (All
float operations on this input are exact, so the C++ program loops
forever on it.) -/
theorem C1_process_hangs_on_partial_final_grain :
    ∀ whileFuel splatFuel : ℕ,
      GranularTimePitchAdjust [0, 0, 0] 1 4 1 1 (1 / 2) 0 whileFuel
        splatFuel = none := by
  intro wf sf
  rcases c1_while_g0 wf sf with h | h
  · norm_num [GranularTimePitchAdjust, granularGrainsGo, qtrunc_q0,
      qtrunc_q1, qtrunc_q2,
      qtrunc_q3, qtrunc_q4, List.replicate_succ, List.replicate_zero,
      List.range_succ, List.range_zero, h]
  · norm_num [GranularTimePitchAdjust, granularGrainsGo, qtrunc_q0,
      qtrunc_q1, qtrunc_q2,
      qtrunc_q3, qtrunc_q4, List.replicate_succ, List.replicate_zero,
      List.range_succ, List.range_zero, h, c1_while_g1 wf sf]

/-- Source.cpp `GranularTimePitchAdjustDynamic` output-size first pass
(lines 558-582): the allocated per-channel output length is accumulated
over all grains as `size_t(grainSize * timeMultiplier)`, where the grain
end is clamped with `grainEnd = std::min(grainEnd, input.size())` — the
TOTAL interleaved buffer length — and the multipliers come from the
settings callback at `percent = i / numGrains` (the callback defaults both
multipliers to `1` before being invoked; it is modelled as a total function
returning the `(timeMultiplier, pitchMultiplier)` pair). -/
def dynamicNumOutputSamples (input : Buf) (numChannels sampleRate : ℕ)
    (grainSizeSeconds : ℚ) (settingsCallback : ℚ → ℚ × ℚ) : ℕ :=
  let numInputSamples := input.length / numChannels
  let grainSizeSamples := qtrunc ((sampleRate : ℚ) * grainSizeSeconds)
  let numGrains := numInputSamples / grainSizeSamples +
    (if numInputSamples % grainSizeSamples = 0 then 0 else 1)
  (List.range numGrains).foldl
    (fun numOutputSamples i =>
      let grainStart := i * grainSizeSamples
      let grainEnd := min (grainStart + grainSizeSamples) input.length
      let grainSize := grainEnd - grainStart
      let percent := (i : ℚ) / (numGrains : ℚ)
      let timeMultiplier := (settingsCallback percent).1
      numOutputSamples + qtrunc ((grainSize : ℚ) * timeMultiplier)) 0

/-- Modelled from the spec: the allocation size C9 claims, in which the
final grain is shortened to the input's remaining PER-CHANNEL samples
(clamping against `numInputSamples`, not against the total interleaved
buffer length). -/
def specDynamicNumOutputSamples (input : Buf) (numChannels sampleRate : ℕ)
    (grainSizeSeconds : ℚ) (settingsCallback : ℚ → ℚ × ℚ) : ℕ :=
  let numInputSamples := input.length / numChannels
  let grainSizeSamples := qtrunc ((sampleRate : ℚ) * grainSizeSeconds)
  let numGrains := numInputSamples / grainSizeSamples +
    (if numInputSamples % grainSizeSamples = 0 then 0 else 1)
  (List.range numGrains).foldl
    (fun numOutputSamples i =>
      let grainStart := i * grainSizeSamples
      let grainEnd := min (grainStart + grainSizeSamples) numInputSamples
      let grainSize := grainEnd - grainStart
      let percent := (i : ℚ) / (numGrains : ℚ)
      let timeMultiplier := (settingsCallback percent).1
      numOutputSamples + qtrunc ((grainSize : ℚ) * timeMultiplier)) 0

/-- C9 counterexample: for a stereo input of 6 interleaved samples
(3 frames per channel), grain size 2 frames and a constant callback
returning multiplier 1, the code's first pass clamps the final grain
against the total length 6 and allocates `2 + 2 = 4` frames per channel,
while the claimed per-channel clamping would shorten the final grain to
1 frame and give `2 + 1 = 3`. -/
theorem C9_counterexample :
    dynamicNumOutputSamples (List.replicate 6 0) 2 4 (1 / 2)
        (fun _ => (1, 1)) ≠
      specDynamicNumOutputSamples (List.replicate 6 0) 2 4 (1 / 2)
        (fun _ => (1, 1)) := by
  norm_num [dynamicNumOutputSamples, specDynamicNumOutputSamples,
    qtrunc_q0, qtrunc_q1, qtrunc_q2, List.replicate_succ,
    List.replicate_zero, List.range_succ, List.range_zero,
    List.foldl_append, List.foldl_cons, List.foldl_nil, Nat.min_def]

/-- Accumulating fold of a range equals the start plus the finite sum. -/
lemma foldl_add_range (f : ℕ → ℕ) (n a : ℕ) :
    (List.range n).foldl (fun acc i => acc + f i) a =
      a + ∑ i in Finset.range n, f i := by
  induction n generalizing a with
  | zero => simp
  | succ m ih =>
      rw [List.range_succ, List.foldl_append]
      simp only [List.foldl_cons, List.foldl_nil]
      rw [ih, Finset.sum_range_succ]
      omega

/-- C9, amended: the allocated per-channel output length of the dynamic
engine equals the sum over all grains `i` of
`size_t(grainSize_i * timeMultiplier_i)`, where `timeMultiplier_i` is the
callback's first component at `i / numGrains` and `grainSize_i` is the full
grain size clamped against the TOTAL interleaved buffer length (not the
per-channel length): `min(i*gs + gs, input.length) - i*gs`. -/
theorem C9_alloc_length_sums_scaled_grains (input : Buf)
    (numChannels sampleRate : ℕ) (grainSizeSeconds : ℚ)
    (settingsCallback : ℚ → ℚ × ℚ) :
    dynamicNumOutputSamples input numChannels sampleRate grainSizeSeconds
        settingsCallback =
      let gs := qtrunc ((sampleRate : ℚ) * grainSizeSeconds)
      let ng := input.length / numChannels / gs +
        (if input.length / numChannels % gs = 0 then 0 else 1)
      ∑ i in Finset.range ng,
        qtrunc (((min (i * gs + gs) input.length - i * gs : ℕ) : ℚ) *
          (settingsCallback ((i : ℚ) / (ng : ℚ))).1) := by
  simp only [dynamicNumOutputSamples]
  rw [foldl_add_range]
  rw [Nat.zero_add]

end GranularSynth
